import Mathlib

/-!
Verification development for `codebase_summarizer3.py`, a script that scans a
source tree, filters files through simplified gitignore rules, partitions the
text files into batches, allocates each batch a proportional token budget,
sends each batch to an external summarization service, and merges each raw
response into a persistent JSON aggregate.

The Python source is shallowly embedded below:

* filesystem paths are modelled as lists of path components (`Path`); joining
  with `/` recovers the string form used for pattern matching;
* `fnmatch.fnmatch` (Python standard library, POSIX behaviour where
  `os.path.normcase` is the identity) is embedded as a glob matcher over
  tokenized patterns: `*` matches any character sequence including `/`,
  `?` matches one character, `[...]`/`[!...]` are character classes, and an
  unclosed `[` is a literal, exactly as in `fnmatch.translate`;
* JSON values are a mutual inductive (`Json`, `JsonList`, `JsonEntries`) so
  that all functions over them are structural and kernel-evaluable;
* effectful probes (file existence, mime guessing, decode probing, the
  `json.loads` parse of a raw response string) are supplied as oracles: a
  `FileProbe` record for `is_text_file`, and an `Option Json` parse outcome
  (`none` models `json.JSONDecodeError`) for the merge step;
* Python exceptions that the source does not catch are surfaced through
  `Except PyError`.
-/

/- ===================== fnmatch (Python stdlib) ====================== -/

/-- One token of a translated glob pattern, mirroring the cases of
`fnmatch.translate`: `*`, `?`, a character class (with negation flag and raw
content), or a literal character. -/
inductive GlobTok where
  | star
  | anyChar
  | cls (negated : Bool) (content : List Char)
  | lit (c : Char)
deriving DecidableEq

/-- Membership of a character in a character class body, with `a-b` ranges as
in a regular-expression class (the translation target of `fnmatch.translate`);
other characters match literally. -/
def classMatches : List Char → Char → Bool
  | a :: '-' :: b :: rest, c =>
      (decide (a ≤ c) && decide (c ≤ b)) || classMatches rest c
  | a :: rest, c => a == c || classMatches rest c
  | [], _ => false

/-- Scan for the closing `]` of a character class: returns the class body and
the remaining pattern, or `none` when the class is unclosed. -/
def scanClassBody : List Char → Option (List Char × List Char)
  | [] => none
  | ']' :: rest => some ([], rest)
  | c :: rest => (scanClassBody rest).map (fun p => (c :: p.1, p.2))

/-- Scan a character class after its opening `[`, following
`fnmatch.translate`: a leading `!` negates, and a `]` in first content
position is part of the body. -/
def scanClass : List Char → Option (Bool × List Char × List Char)
  | '!' :: ']' :: t => (scanClassBody t).map (fun p => (true, ']' :: p.1, p.2))
  | '!' :: t => (scanClassBody t).map (fun p => (true, p.1, p.2))
  | ']' :: t => (scanClassBody t).map (fun p => (false, ']' :: p.1, p.2))
  | r => (scanClassBody r).map (fun p => (false, p.1, p.2))

/-- Tokenize a glob pattern, fuelled so the recursion is structural; every
step consumes at least one pattern character, so fuel equal to the pattern
length (as supplied by `tokenize`) never runs out. An unclosed `[` is emitted
as a literal and scanning resumes right after it, as in `fnmatch.translate`. -/
def tokenizeFuel : Nat → List Char → List GlobTok
  | 0, _ => []
  | _ + 1, [] => []
  | fuel + 1, '*' :: r => .star :: tokenizeFuel fuel r
  | fuel + 1, '?' :: r => .anyChar :: tokenizeFuel fuel r
  | fuel + 1, '[' :: r =>
      match scanClass r with
      | some (neg, content, rest) => .cls neg content :: tokenizeFuel fuel rest
      | none => .lit '[' :: tokenizeFuel fuel r
  | fuel + 1, c :: r => .lit c :: tokenizeFuel fuel r

/-- Tokenize a whole glob pattern. -/
def tokenize (pat : List Char) : List GlobTok := tokenizeFuel pat.length pat

/-- Match a tokenized glob pattern against a character list. `star` tries
every suffix (the `.*` of the translated regular expression, which crosses
`/` and newlines); the match must consume the whole string (the trailing
anchor of `fnmatch.translate`). -/
def matchToks : List GlobTok → List Char → Bool
  | [], s => s.isEmpty
  | .star :: ts, s => s.tails.any (fun t => matchToks ts t)
  | .anyChar :: _, [] => false
  | .anyChar :: ts, _ :: s => matchToks ts s
  | .cls _ _ :: _, [] => false
  | .cls neg content :: ts, d :: s => (classMatches content d != neg) && matchToks ts s
  | .lit _ :: _, [] => false
  | .lit c :: ts, d :: s => c == d && matchToks ts s

/-- Embedding of `fnmatch.fnmatch(name, pat)` on POSIX, where
`os.path.normcase` is the identity. -/
def fnmatch (name pat : String) : Bool :=
  matchToks (tokenize pat.toList) name.toList

/- ===================== PathFilter: is_ignored ====================== -/

/-- The pattern loop of `is_ignored` (source lines 212-227): empty patterns
are skipped; a leading `!` marks negation and is stripped; a pattern matches
if the relative path matches it directly or matches `*/pattern`; the first
matching pattern decides the verdict (`not negated`); no match means not
ignored. -/
def is_ignored_go (relPath : String) : List String → Bool
  | [] => false
  | p :: ps =>
    if p = "" then is_ignored_go relPath ps
    else
      let negated : Bool := match p.toList with | '!' :: _ => true | _ => false
      let pat := if negated then p.drop 1 else p
      if fnmatch relPath pat || fnmatch relPath ("*/" ++ pat) then !negated
      else is_ignored_go relPath ps

/-- Embedding of `is_ignored` applied to an already root-relative,
forward-slash path (the source first computes `os.path.relpath` and replaces
backslashes, a no-op on POSIX). -/
def is_ignored_rel (relPath : String) (ignorePatterns : List String) : Bool :=
  if ignorePatterns.isEmpty then false else is_ignored_go relPath ignorePatterns

/-- A filesystem path as its list of components; joining with `/` recovers
the POSIX string form. -/
abbrev FsPath := List String

/-- Join path components with forward slashes. -/
def joinSlash (p : FsPath) : String := String.intercalate "/" p

/-- Embedding of `os.path.relpath(p, root)` in the only case the program
exercises, `root` an ancestor of `p`: the components of `p` past `root`. -/
def relPathFrom (p root : FsPath) : FsPath := p.drop root.length

/-- Embedding of `is_ignored(file_path, root_path, ignore_patterns)`
(source lines 201-228). -/
def is_ignored (filePath rootPath : FsPath) (ignorePatterns : List String) : Bool :=
  is_ignored_rel (joinSlash (relPathFrom filePath rootPath)) ignorePatterns

example : fnmatch "build/app.log" "*.log" = true := by decide
example : fnmatch "keep.log" "*.log" = true := by decide
example : is_ignored_rel "keep.log" ["*.log", "!keep.log"] = true := by decide
example : is_ignored_rel "build/app.log" ["*.log", "!keep.log"] = true := by decide
example : is_ignored_rel "keep.log" ["!keep.log", "*.log"] = false := by decide

/- ===================== is_text_file ====================== -/

/-- The `DEFAULT_TEXT_EXTENSIONS` allow-list (source lines 32-37). -/
def DEFAULT_TEXT_EXTENSIONS : List String := [
  ".py", ".js", ".ts", ".html", ".css", ".json", ".md", ".txt",
  ".jsx", ".tsx", ".vue", ".yml", ".yaml", ".toml", ".ini", ".cfg",
  ".sh", ".bash", ".c", ".cpp", ".h", ".hpp", ".java", ".go", ".rb",
  ".php", ".swift", ".rs", ".scala", ".sql", ".xml"]

/-- Split a character list at its last `.`: returns the part before it and
the part from the dot on, preferring a later dot. -/
def splitAtLastDot : List Char → Option (List Char × List Char)
  | [] => none
  | c :: rest =>
    match splitAtLastDot rest with
    | some (a, b) => some (c :: a, b)
    | none => if c = '.' then some ([], '.' :: rest) else none

/-- Embedding of `os.path.splitext(p)[1].lower()`: the extension starts at
the last dot of the basename, provided some earlier basename character is not
a dot (so `.gitignore` has no extension); lowercased as in the source. -/
def splitextExtLower (p : FsPath) : String :=
  let base := (p.getLast?).getD ""
  match splitAtLastDot base.toList with
  | some (pre, ext) =>
      if pre.any (fun c => c ≠ '.') then String.mk (ext.map Char.toLower) else ""
  | none => ""

/-- Oracle for the effectful probes of `is_text_file`: whether the file
exists, whether `mimetypes.guess_type` yields a `text/` type, and the
outcome of reading the first 1KB as UTF-8 (`some ok` with `ok = false` for
`UnicodeDecodeError`; `none` for any other read exception). -/
structure FileProbe where
  fileExists : FsPath → Bool
  mimeIsText : FsPath → Bool
  utf8Probe : FsPath → Option Bool

/-- Embedding of `is_text_file` (source lines 151-180): missing files are
non-text; then the extension allow-list, then the mime guess, then the decode
probe, where a decode error or any other exception yields `false`. -/
def is_text_file (fs : FileProbe) (p : FsPath) : Bool :=
  if !fs.fileExists p then false
  else if splitextExtLower p ∈ DEFAULT_TEXT_EXTENSIONS then true
  else if fs.mimeIsText p then true
  else match fs.utf8Probe p with
    | some ok => ok
    | none => false

/- ============== FileDiscovery: the branch in process_directory ============== -/

/-- Classification of one discovered file. -/
inductive FileClass where
  | included
  | ignored
  | binary
deriving DecidableEq

/-- Componentwise embedding of `all_files[0].startswith(directory)`: the
paths compared in the source are always component-aligned (both produced
under `directory`), so string `startswith` coincides with component-list
prefixing. -/
def pathStartsWith (p base : FsPath) : Bool := base.isPrefixOf p

/-- The file-list selection of `process_directory` (source lines 846-875):
when git use is requested, the git file list is authoritative when nonempty
(Python truthiness of `git_files`), otherwise the manual recursive walk; with
git disabled, always the walk. -/
def discovered_files (useGit : Bool) (gitFiles walkFiles : List FsPath) : List FsPath :=
  if useGit then (if gitFiles.isEmpty then walkFiles else gitFiles) else walkFiles

/-- The per-file branch of the filtering loop (source lines 888-902),
including the exact guard
`use_git and all_files and len(all_files) > 0 and all_files[0].startswith(directory)`:
when it holds the file is only classified text/binary; otherwise it is tested
against `is_ignored` first and then `is_text_file`. -/
def classify_file (useGit : Bool) (directory : FsPath) (allFiles : List FsPath)
    (ignorePatterns : List String) (fs : FileProbe) (filePath : FsPath) : FileClass :=
  if useGit && !allFiles.isEmpty && pathStartsWith (allFiles.headD []) directory then
    if is_text_file fs filePath then .included else .binary
  else
    if is_ignored filePath directory ignorePatterns then .ignored
    else if is_text_file fs filePath then .included else .binary

/-- The filtering loop over a file list, producing the `included_files`,
`ignored_files` and `binary_files` lists in traversal order. -/
def classify_list (useGit : Bool) (directory : FsPath) (allFiles : List FsPath)
    (ignorePatterns : List String) (fs : FileProbe) :
    List FsPath → List FsPath × List FsPath × List FsPath
  | [] => ([], [], [])
  | f :: rest =>
    let (inc, ign, bin) := classify_list useGit directory allFiles ignorePatterns fs rest
    match classify_file useGit directory allFiles ignorePatterns fs f with
    | .included => (f :: inc, ign, bin)
    | .ignored => (inc, f :: ign, bin)
    | .binary => (inc, ign, f :: bin)

/-- Discovery followed by classification, as `process_directory` runs them
(source lines 846-902): select `all_files`, then filter every file through
the loop above. -/
def discover_and_classify (useGit : Bool) (directory : FsPath)
    (gitFiles walkFiles : List FsPath) (ignorePatterns : List String)
    (fs : FileProbe) : List FsPath × List FsPath × List FsPath :=
  let allFiles := discovered_files useGit gitFiles walkFiles
  classify_list useGit directory allFiles ignorePatterns fs allFiles

/- ===================== JSON values ====================== -/

mutual
/-- A parsed JSON value, as produced by `json.loads`. Numbers are modelled as
integers (no claim below depends on non-integral numbers); objects preserve
insertion order, as Python dicts do. Arrays and object entry lists are their
own inductives so every function below is structural and kernel-evaluable. -/
inductive Json where
  | null
  | bool (b : Bool)
  | num (n : ℤ)
  | str (s : String)
  | arr (elems : JsonList)
  | obj (entries : JsonEntries)
deriving DecidableEq
/-- A JSON array's elements. -/
inductive JsonList where
  | nil
  | cons (hd : Json) (tl : JsonList)
deriving DecidableEq
/-- A JSON object's entries, in insertion order. -/
inductive JsonEntries where
  | nil
  | cons (key : String) (val : Json) (tl : JsonEntries)
deriving DecidableEq
end

/-- Whether an array is empty. -/
def JsonList.isEmpty : JsonList → Bool
  | .nil => true
  | .cons _ _ => false

/-- Whether an object has no entries. -/
def JsonEntries.isEmpty : JsonEntries → Bool
  | .nil => true
  | .cons _ _ _ => false

/-- Number of entries of an object: Python `len` of a dict. -/
def JsonEntries.length : JsonEntries → Nat
  | .nil => 0
  | .cons _ _ tl => tl.length + 1

/-- Python `key in dict`. -/
def JsonEntries.hasKey : JsonEntries → String → Bool
  | .nil, _ => false
  | .cons k _ tl, key => k == key || tl.hasKey key

/-- Python `dict[key]` as an option. -/
def JsonEntries.lookupKey : JsonEntries → String → Option Json
  | .nil, _ => none
  | .cons k v tl, key => if k == key then some v else tl.lookupKey key

/-- Python `dict[key] = value`: overwrite in place when the key exists,
append otherwise (insertion-order semantics of Python dicts). -/
def JsonEntries.setKey : JsonEntries → String → Json → JsonEntries
  | .nil, key, v => .cons key v .nil
  | .cons k w tl, key, v =>
    if k == key then .cons k v tl else .cons k w (tl.setKey key v)

/-- Python membership of a value in a list (`x in list`), by equality; a
string compares equal only to the same string. -/
def JsonList.containsVal : JsonList → Json → Bool
  | .nil, _ => false
  | .cons h tl, v => h == v || tl.containsVal v

/-- Substring test on character lists (Python `needle in haystack` for
strings). -/
def listContainsSub (needle : List Char) : List Char → Bool
  | [] => needle.isEmpty
  | c :: rest => needle.isPrefixOf (c :: rest) || listContainsSub needle rest

/-- Python truthiness of a JSON value: `None`, `False`, zero, the empty
string, the empty list and the empty dict are falsy; everything else is
truthy. -/
def pyTruthy : Json → Bool
  | .null => false
  | .bool b => b
  | .num n => n != 0
  | .str s => s != ""
  | .arr xs => !xs.isEmpty
  | .obj kvs => !kvs.isEmpty

/-- The filter condition of `clean_empty_values`
(`if v and v != {} and v != [] and v != ""`, source lines 65 and 69): Python
truthiness conjoined with the three (redundant) explicit emptiness tests. -/
def keepValue (v : Json) : Bool :=
  pyTruthy v && !(v == Json.obj .nil) && !(v == Json.arr .nil) && !(v == Json.str "")

mutual
/-- Embedding of `clean_empty_values` (source lines 50-72): recursively clean
dict values and list elements, dropping any cleaned value that fails the
filter condition; scalars are returned unchanged. -/
def clean_empty_values : Json → Json
  | .obj kvs => .obj (cleanEntries kvs)
  | .arr xs => .arr (cleanList xs)
  | j => j
/-- The list comprehension of `clean_empty_values` over a JSON array. -/
def cleanList : JsonList → JsonList
  | .nil => .nil
  | .cons v vs =>
    let c := clean_empty_values v
    if keepValue c then .cons c (cleanList vs) else cleanList vs
/-- The dict comprehension of `clean_empty_values` over a JSON object. -/
def cleanEntries : JsonEntries → JsonEntries
  | .nil => .nil
  | .cons k v vs =>
    let c := clean_empty_values v
    if keepValue c then .cons k c (cleanEntries vs) else cleanEntries vs
end

mutual
/-- No member of any object and no element of any array, at any depth, is
falsy. -/
def noFalsyInside : Json → Bool
  | .obj kvs => noFalsyEntries kvs
  | .arr xs => noFalsyList xs
  | _ => true
/-- Array form of `noFalsyInside`. -/
def noFalsyList : JsonList → Bool
  | .nil => true
  | .cons v vs => pyTruthy v && noFalsyInside v && noFalsyList vs
/-- Object form of `noFalsyInside`. -/
def noFalsyEntries : JsonEntries → Bool
  | .nil => true
  | .cons _ v vs => pyTruthy v && noFalsyInside v && noFalsyEntries vs
end

example : clean_empty_values (.obj (.cons "a" (.num 0) (.cons "b" (.bool false)
    (.cons "c" (.arr (.cons (.num 0) .nil)) .nil)))) = .obj .nil := by decide
example : clean_empty_values (.obj (.cons "p" (.str "x")
    (.cons "c" (.arr (.cons (.num 0) (.cons (.num 7) .nil))) .nil)))
    = .obj (.cons "p" (.str "x") (.cons "c" (.arr (.cons (.num 7) .nil)) .nil)) := by decide

/- ===================== ResultMerger ====================== -/

/-- Python exceptions that the merge and optimization code can raise and does
not catch. -/
inductive PyError where
  | attributeError
  | typeError
  | keyError
deriving DecidableEq

deriving instance DecidableEq for Except

/-- Python `key in value` for a parsed JSON value: key lookup on a dict,
membership on a list, substring test on a string, and `TypeError` on the
non-iterable scalars. -/
def pyContainsKey : Json → String → Except PyError Bool
  | .obj kvs, key => .ok (kvs.hasKey key)
  | .arr xs, key => .ok (xs.containsVal (.str key))
  | .str s, key => .ok (listContainsSub key.toList s.toList)
  | .null, _ => .error .typeError
  | .bool _, _ => .error .typeError
  | .num _, _ => .error .typeError

/-- Python `value[key]` with a string key: dict lookup (`KeyError` when
absent), `TypeError` on lists and strings (whose indices are integers) and on
the scalars. -/
def pyGetItemStr : Json → String → Except PyError Json
  | .obj kvs, key =>
    match kvs.lookupKey key with
    | some v => .ok v
    | none => .error .keyError
  | _, _ => .error .typeError

/-- Python `value.items()`: the entries of a dict, `AttributeError` on
anything else. -/
def pyItems : Json → Except PyError JsonEntries
  | .obj kvs => .ok kvs
  | _ => .error .attributeError

/-- The synthesized per-file entry written on parse failure or when the
`files` key is missing (source lines 1018-1021 and 1032-1035). -/
def errorEntry (rawText : String) : Json :=
  .obj (.cons "error" (.str "Failed to parse analysis")
       (.cons "raw_response" (.str rawText) .nil))

/-- Write the synthesized error entry for every file of the batch, keyed by
its root-relative path, in batch order. -/
def addErrorEntries (rawText : String) (directory : FsPath) :
    List FsPath → JsonEntries → JsonEntries
  | [], fa => fa
  | f :: rest, fa =>
    addErrorEntries rawText directory rest
      (fa.setKey (joinSlash (relPathFrom f directory)) (errorEntry rawText))

/-- The loop over `batch_data["files"].items()` (source lines 1008-1012):
each analysis is cleaned, and written into `file_analyses` only when the
cleaned value is truthy. -/
def mergeAnalyses : JsonEntries → JsonEntries → JsonEntries
  | fa, .nil => fa
  | fa, .cons key v rest =>
    let cleaned := clean_empty_values v
    mergeAnalyses (if pyTruthy cleaned then fa.setKey key cleaned else fa) rest

/-- The slice of the aggregate document that the per-batch merge step reads
and writes: the three metadata progress counters (absent before the first
successful merge) and the `file_analyses` mapping. -/
structure Aggregate where
  completed_batches : Option ℤ
  total_batches : Option ℤ
  files_analyzed : Option ℤ
  file_analyses : JsonEntries
deriving DecidableEq

/-- The aggregate as initialized before the first batch (source lines
933-944): no progress counters, empty `file_analyses`. -/
def empty_aggregate : Aggregate := ⟨none, none, none, .nil⟩

/-- Embedding of the per-batch merge step of `process_directory` (source
lines 1001-1035), the region guarded by `try ... except json.JSONDecodeError`.
`parsed` is the outcome of `json.loads(batch_analysis)` on the raw response
text (`none` models `json.JSONDecodeError`); `rawText` is that text;
`batchNum` and `totalBatches` are the loop's `i//batch_size + 1` and
`(total_files + batch_size - 1)//batch_size`. On parse failure the handler
writes one synthesized error entry per batch file and does not touch the
progress counters. On parse success, the `files` entries are merged (or,
when the key is missing, error entries are written) and then the three
counters are updated; any `TypeError`/`AttributeError` arising from a
wrong-shaped value is not caught and propagates. -/
def merge_batch (parsed : Option Json) (rawText : String) (batch : List FsPath)
    (directory : FsPath) (batchNum totalBatches : ℤ) (agg : Aggregate) :
    Except PyError Aggregate :=
  match parsed with
  | none =>
    .ok { agg with
          file_analyses := addErrorEntries rawText directory batch agg.file_analyses }
  | some batchData =>
    match pyContainsKey batchData "files" with
    | .error e => .error e
    | .ok true =>
      match pyGetItemStr batchData "files" with
      | .error e => .error e
      | .ok filesVal =>
        match pyItems filesVal with
        | .error e => .error e
        | .ok entries =>
          let fa := mergeAnalyses agg.file_analyses entries
          .ok { completed_batches := some batchNum,
                total_batches := some totalBatches,
                files_analyzed := some (fa.length : ℤ),
                file_analyses := fa }
    | .ok false =>
      let fa := addErrorEntries rawText directory batch agg.file_analyses
      .ok { completed_batches := some batchNum,
            total_batches := some totalBatches,
            files_analyzed := some (fa.length : ℤ),
            file_analyses := fa }

/- ===================== Optimization pass ====================== -/

/-- Outcome of the optimization pass's accept-or-reject gate: what ends up
written to the output file (`none` when the pass returns without writing)
and the boolean the function returns. -/
structure OptimizeResult where
  written : Option Json
  success : Bool
deriving DecidableEq

/-- Embedding of the accept-or-reject region of `optimize_json_output`
(source lines 740-793). `originalData` and `originalSize` are the parsed
input document and `len(json.dumps(original_data))`; `parsed` is the outcome
of `json.loads` on the repaired response text and `optimizedSize` that text's
length. Parse failure writes the original and reports failure. Otherwise the
rejection condition `optimized_size >= original_size or "metadata" not in
optimized_data or "file_tree" not in optimized_data or "file_analyses" not in
optimized_data` is evaluated with Python short-circuiting; a `TypeError`
raised by a membership test on a non-container scalar escapes to the outer
handler, which returns failure without writing anything. -/
def optimize_gate (originalData : Json) (originalSize : Nat)
    (parsed : Option Json) (optimizedSize : Nat) : OptimizeResult :=
  match parsed with
  | none => ⟨some originalData, false⟩
  | some optimizedData =>
    if originalSize ≤ optimizedSize then ⟨some originalData, false⟩
    else
      match pyContainsKey optimizedData "metadata" with
      | .error _ => ⟨none, false⟩
      | .ok mHas =>
        if !mHas then ⟨some originalData, false⟩
        else
          match pyContainsKey optimizedData "file_tree" with
          | .error _ => ⟨none, false⟩
          | .ok tHas =>
            if !tHas then ⟨some originalData, false⟩
            else
              match pyContainsKey optimizedData "file_analyses" with
              | .error _ => ⟨none, false⟩
              | .ok fHas =>
                if !fHas then ⟨some originalData, false⟩
                else ⟨some optimizedData, true⟩

/- ===================== Batch payload header paths ====================== -/

/-- Embedding of `os.path.dirname`: all components but the last. -/
def dirname (p : FsPath) : FsPath := p.dropLast

/-- The header path of one file in the batch payload (source line 496):
`os.path.relpath(file_path, os.path.dirname(os.path.dirname(file_path)))`,
i.e. the path relative to the grandparent directory of the file. -/
def batch_header_rel_path (filePath : FsPath) : FsPath :=
  relPathFrom filePath (dirname (dirname filePath))

example : batch_header_rel_path ["root", "src", "pkg", "mod.py"] = ["pkg", "mod.py"] := by decide
example : merge_batch (some (.obj (.cons "files" (.arr .nil) .nil))) "t" [] [] 1 1
    empty_aggregate = .error .attributeError := by decide
example : merge_batch (some (.num 42)) "t" [] [] 1 1 empty_aggregate
    = .error .typeError := by decide

/- ===================== Helper lemmas ====================== -/

theorem lookupKey_setKey_self : ∀ (fa : JsonEntries) (key : String) (v : Json),
    (fa.setKey key v).lookupKey key = some v
  | .nil, key, v => by simp [JsonEntries.setKey, JsonEntries.lookupKey]
  | .cons k w tl, key, v => by
    cases hb : k == key with
    | true => simp [JsonEntries.setKey, hb, JsonEntries.lookupKey]
    | false =>
      simp [JsonEntries.setKey, hb, JsonEntries.lookupKey,
        lookupKey_setKey_self tl key v]

theorem lookupKey_setKey_ne : ∀ (fa : JsonEntries) (kset key : String) (v : Json),
    (kset == key) = false → (fa.setKey kset v).lookupKey key = fa.lookupKey key
  | .nil, kset, key, v, h => by
    simp [JsonEntries.setKey, JsonEntries.lookupKey, h]
  | .cons k w tl, kset, key, v, h => by
    cases hb : k == kset with
    | true =>
      have hk : k = kset := by simpa using hb
      subst hk
      simp [JsonEntries.setKey, JsonEntries.lookupKey, h]
    | false =>
      simp [JsonEntries.setKey, hb, JsonEntries.lookupKey,
        lookupKey_setKey_ne tl kset key v h]

theorem addErrorEntries_lookup (rawText : String) (directory : FsPath) :
    ∀ (batch : List FsPath) (fa : JsonEntries) (key : String),
    (addErrorEntries rawText directory batch fa).lookupKey key =
      if batch.any (fun f => joinSlash (relPathFrom f directory) == key)
      then some (errorEntry rawText) else fa.lookupKey key
  | [], fa, key => by simp [addErrorEntries]
  | f :: rest, fa, key => by
    rw [addErrorEntries, addErrorEntries_lookup rawText directory rest _ key]
    cases hb : joinSlash (relPathFrom f directory) == key with
    | true =>
      have hk : joinSlash (relPathFrom f directory) = key := by simpa using hb
      by_cases hr : rest.any (fun g => joinSlash (relPathFrom g directory) == key)
      · simp [hr, hb]
      · have h1 : (fa.setKey (joinSlash (relPathFrom f directory))
            (errorEntry rawText)).lookupKey key = some (errorEntry rawText) := by
          rw [← hk]
          exact lookupKey_setKey_self fa _ _
        simp [hr, hb, h1]
    | false =>
      by_cases hr : rest.any (fun g => joinSlash (relPathFrom g directory) == key)
      · simp [hr, hb]
      · simp only [List.any_cons, hb, Bool.false_or]
        rw [if_neg (by simpa using hr), if_neg (by simpa using hr)]
        exact lookupKey_setKey_ne fa _ key _ hb

mutual
/-- Cleaning leaves no falsy value inside any object or array, at any
depth. -/
theorem clean_noFalsy : ∀ j : Json, noFalsyInside (clean_empty_values j) = true
  | .null => rfl
  | .bool _ => rfl
  | .num _ => rfl
  | .str _ => rfl
  | .arr xs => by simp [clean_empty_values, noFalsyInside, cleanList_noFalsy xs]
  | .obj kvs => by simp [clean_empty_values, noFalsyInside, cleanEntries_noFalsy kvs]
/-- Array form of `clean_noFalsy`. -/
theorem cleanList_noFalsy : ∀ xs : JsonList, noFalsyList (cleanList xs) = true
  | .nil => rfl
  | .cons v vs => by
    by_cases hk : keepValue (clean_empty_values v)
    · have ht : pyTruthy (clean_empty_values v) = true := by
        simp [keepValue] at hk
        tauto
      simp [cleanList, hk, noFalsyList, ht, clean_noFalsy v, cleanList_noFalsy vs]
    · simp [cleanList, hk, cleanList_noFalsy vs]
/-- Object form of `clean_noFalsy`. -/
theorem cleanEntries_noFalsy : ∀ kvs : JsonEntries, noFalsyEntries (cleanEntries kvs) = true
  | .nil => rfl
  | .cons k v vs => by
    by_cases hk : keepValue (clean_empty_values v)
    · have ht : pyTruthy (clean_empty_values v) = true := by
        simp [keepValue] at hk
        tauto
      simp [cleanEntries, hk, noFalsyEntries, ht, clean_noFalsy v, cleanEntries_noFalsy vs]
    · simp [cleanEntries, hk, cleanEntries_noFalsy vs]
end

/-- Every entry is an object carrying an `error` key and the raw response
text under `raw_response`. -/
def entriesAllErrorTagged (rawText : String) : JsonEntries → Bool
  | .nil => true
  | .cons _ v tl =>
    (match v with
     | .obj kvs => kvs.hasKey "error" &&
         (kvs.lookupKey "raw_response" == some (.str rawText))
     | _ => false) && entriesAllErrorTagged rawText tl

/- ===================== Claim theorems ====================== -/

/-- Probe oracle under which every file exists, has no `text/` mime guess,
and decodes cleanly as UTF-8, so `is_text_file` accepts any existing file. -/
def probeAlwaysText : FileProbe :=
  ⟨fun _ => true, fun _ => false, fun _ => some true⟩

/-- C1: evaluation of the discovery-and-filter code at the failing input.
Git use is requested, the collaborator yields no file list, and the manual
walk finds `home/proj/app.log`, which matches the ignore rule `*.log`
(third conjunct: `is_ignored` holds for it). The claim — and the source's
own comment, "If we got files from Git, they're already filtered" — say the
fallback must classify it as ignored, but because walked paths also satisfy
`all_files[0].startswith(directory)`, the loop takes the git-trusting branch
and classifies the file as included, never consulting `is_ignored` (first
conjunct). With git explicitly disabled the same input is classified as
ignored (second conjunct), confirming that only the git-requested fallback
skips the ignore rules. -/
theorem C1_git_fallback_skips_ignore_rules :
    discover_and_classify true ["home", "proj"] [] [["home", "proj", "app.log"]]
        ["*.log"] probeAlwaysText
      = ([["home", "proj", "app.log"]], [], []) ∧
    discover_and_classify false ["home", "proj"] [] [["home", "proj", "app.log"]]
        ["*.log"] probeAlwaysText
      = ([], [["home", "proj", "app.log"]], []) ∧
    is_ignored ["home", "proj", "app.log"] ["home", "proj"] ["*.log"] = true := by
  decide

/-- C3 counterexample: with the rule list `["*.log", "!keep.log"]`, the code
judges `keep.log` ignored — the claim says the later negated rule un-ignores
it, but `is_ignored` returns on the first matching rule (`*.log`), so the
negation is never consulted. -/
theorem C3_keep_log_is_ignored :
    is_ignored_rel "keep.log" ["*.log", "!keep.log"] = true := by decide

/-- C3 amended: for the rule list `["*.log", "!keep.log"]`, `is_ignored`
judges `build/app.log` ignored and judges `keep.log` ignored as well, because
the first matching rule in list order decides the verdict (first-match-wins);
a negated rule un-ignores only when it precedes every other matching rule, as
the reversed list shows. -/
theorem C3_first_match_wins_amended :
    is_ignored_rel "build/app.log" ["*.log", "!keep.log"] = true ∧
    is_ignored_rel "keep.log" ["*.log", "!keep.log"] = true ∧
    is_ignored_rel "keep.log" ["!keep.log", "*.log"] = false := by decide

/-- C9: the recursive pruning removes every falsy value — not only empty
containers, `None` and empty strings, but also the number 0 and the boolean
`false` — from objects and arrays at every nesting depth: no falsy value
remains anywhere in a cleaned document, and in particular an object holding
`0` and `false` at two depths prunes to the empty object. -/
theorem C9_clean_removes_all_falsy :
    (∀ j : Json, noFalsyInside (clean_empty_values j) = true) ∧
    clean_empty_values (.obj (.cons "a" (.num 0) (.cons "b" (.bool false)
        (.cons "c" (.obj (.cons "d" (.num 0) (.cons "e" (.bool false) .nil))) .nil))))
      = .obj .nil :=
  ⟨clean_noFalsy, by decide⟩

/-- C10: the batch payload header path is computed relative to the
grandparent directory of the file, so for a file nested more than one
directory level below the scanned root (root-relative form
`mid ++ [d, f]` with `mid` nonempty) the header keeps only the last
directory component `d` and the filename, and differs from the
root-relative path. -/
theorem C10_header_path_grandparent_relative (root mid : FsPath) (d f : String)
    (hmid : mid ≠ []) :
    batch_header_rel_path (root ++ (mid ++ [d, f])) = [d, f] ∧
    batch_header_rel_path (root ++ (mid ++ [d, f]))
      ≠ relPathFrom (root ++ (mid ++ [d, f])) root := by
  have hA : batch_header_rel_path (root ++ (mid ++ [d, f])) = [d, f] := by
    rw [batch_header_rel_path, dirname, dirname, relPathFrom]
    have h1 : root ++ (mid ++ [d, f]) = ((root ++ mid) ++ [d]) ++ [f] := by simp
    rw [h1, List.dropLast_concat, List.dropLast_concat]
    have h2 : ((root ++ mid) ++ [d]) ++ [f] = (root ++ mid) ++ [d, f] := by simp
    rw [h2, List.drop_left]
  have hB : relPathFrom (root ++ (mid ++ [d, f])) root = mid ++ [d, f] :=
    List.drop_left root _
  refine ⟨hA, ?_⟩
  rw [hA, hB]
  intro h
  exact hmid (List.self_eq_append_left.mp h)

/-- C10 witness: the header path of `r/sub/pkg/m.py` relative to the scan
root `r` keeps only `pkg/m.py`, which differs from the root-relative
`sub/pkg/m.py`. -/
theorem C10_header_path_witness :
    batch_header_rel_path (["r"] ++ (["sub"] ++ ["pkg", "m.py"])) = ["pkg", "m.py"] ∧
    batch_header_rel_path (["r"] ++ (["sub"] ++ ["pkg", "m.py"]))
      ≠ relPathFrom (["r"] ++ (["sub"] ++ ["pkg", "m.py"])) ["r"] :=
  C10_header_path_grandparent_relative ["r"] ["sub"] "pkg" "m.py" (by decide)

/-- C2 counterexample: a raw response parsing to an object whose `files` key
holds an array — the wrong shape the claim says is handled — makes the merge
step raise `AttributeError` at `.items()` (only `json.JSONDecodeError` is
caught), so the exception propagates instead of synthesizing error entries. -/
theorem C2_array_files_raises :
    merge_batch (some (.obj (.cons "files" (.arr .nil) .nil))) "raw"
        [["d", "a.py"]] ["d"] 1 1 empty_aggregate = .error .attributeError := by decide

/-- C2 amended: the per-batch merge never raises when the raw text fails to
parse as JSON, or parses to an object that lacks the `files` key: in both
cases every file of the batch receives a synthesized entry carrying an
`error` field and the raw unparsed text, and the run continues. (When the
`files` key is present but holds a non-object such as an array, or the
parsed top level is a non-container scalar, an uncaught
`AttributeError`/`TypeError` propagates instead.) -/
theorem C2_merge_resilient_amended (parsed : Option Json) (rawText : String)
    (batch : List FsPath) (directory : FsPath) (batchNum totalBatches : ℤ)
    (agg : Aggregate)
    (h : parsed = none ∨ ∃ kvs, parsed = some (.obj kvs) ∧ kvs.hasKey "files" = false) :
    ∃ agg', merge_batch parsed rawText batch directory batchNum totalBatches agg
        = .ok agg' ∧
      ∀ f ∈ batch, agg'.file_analyses.lookupKey (joinSlash (relPathFrom f directory))
        = some (errorEntry rawText) := by
  have hlook : ∀ f ∈ batch,
      (addErrorEntries rawText directory batch agg.file_analyses).lookupKey
        (joinSlash (relPathFrom f directory)) = some (errorEntry rawText) := by
    intro f hf
    rw [addErrorEntries_lookup]
    rw [if_pos]
    exact List.any_eq_true.mpr ⟨f, hf, by simp⟩
  rcases h with h | ⟨kvs, h, hk⟩
  · subst h
    exact ⟨_, rfl, hlook⟩
  · subst h
    refine ⟨{ completed_batches := some batchNum, total_batches := some totalBatches,
              files_analyzed :=
                some ((addErrorEntries rawText directory batch agg.file_analyses).length : ℤ),
              file_analyses := addErrorEntries rawText directory batch agg.file_analyses },
            ?_, hlook⟩
    simp [merge_batch, pyContainsKey, hk]

/-- C2 witness: the amended theorem at a concrete unparseable response and a
one-file batch. -/
theorem C2_merge_resilient_witness :
    ∃ agg', merge_batch none "not json" [["d", "a.py"]] ["d"] 1 1 empty_aggregate
        = .ok agg' ∧
      ∀ f ∈ [["d", "a.py"]], agg'.file_analyses.lookupKey (joinSlash (relPathFrom f ["d"]))
        = some (errorEntry "not json") :=
  C2_merge_resilient_amended none "not json" [["d", "a.py"]] ["d"] 1 1 empty_aggregate
    (Or.inl rfl)

/-- C4 counterexample: after the first batch whose response is unparseable,
`completed_batches` is still unset (`none`), not `1` as the claim requires —
the counter updates sit inside the `try` block and are skipped by the
`json.JSONDecodeError` handler. -/
theorem C4_counters_not_updated_on_parse_failure :
    (merge_batch none "bad" [["d", "a.py"]] ["d"] 1 1 empty_aggregate).map
        (fun a => a.completed_batches) = .ok none ∧
    (.ok none : Except PyError (Option ℤ)) ≠ .ok (some 1) := by decide

/-- C4 amended: the progress counters `completed_batches`, `total_batches`
and `files_analyzed` are updated after every batch whose raw response parses
as JSON and whose merge completes without an exception (whether or not the
`files` key was present); when parsing fails, the handler leaves all three
counters untouched. -/
theorem C4_counters_amended (parsed : Option Json) (rawText : String)
    (batch : List FsPath) (directory : FsPath) (batchNum totalBatches : ℤ)
    (agg : Aggregate) :
    (∀ j agg', parsed = some j →
        merge_batch parsed rawText batch directory batchNum totalBatches agg = .ok agg' →
        agg'.completed_batches = some batchNum ∧ agg'.total_batches = some totalBatches ∧
        agg'.files_analyzed = some (agg'.file_analyses.length : ℤ)) ∧
    (parsed = none →
        ∃ agg', merge_batch parsed rawText batch directory batchNum totalBatches agg
            = .ok agg' ∧
          agg'.completed_batches = agg.completed_batches ∧
          agg'.total_batches = agg.total_batches ∧
          agg'.files_analyzed = agg.files_analyzed) := by
  constructor
  · rintro j agg' rfl hm
    simp only [merge_batch] at hm
    split at hm
    · exact absurd hm (by simp)
    · split at hm
      · exact absurd hm (by simp)
      · split at hm
        · exact absurd hm (by simp)
        · rw [Except.ok.injEq] at hm
          subst hm
          exact ⟨rfl, rfl, rfl⟩
    · rw [Except.ok.injEq] at hm
      subst hm
      exact ⟨rfl, rfl, rfl⟩
  · rintro rfl
    exact ⟨_, rfl, rfl, rfl, rfl⟩

/-- C4 witness: the amended theorem's parse-failure clause at a concrete
input: the counters of the empty aggregate stay unset. -/
theorem C4_counters_witness :
    ∃ agg', merge_batch none "bad" [] [] 5 9 empty_aggregate = .ok agg' ∧
      agg'.completed_batches = empty_aggregate.completed_batches ∧
      agg'.total_batches = empty_aggregate.total_batches ∧
      agg'.files_analyzed = empty_aggregate.files_analyzed :=
  (C4_counters_amended none "bad" [] [] 5 9 empty_aggregate).2 rfl

/-- C8: feeding the merge step a raw response that is not valid JSON
(`parsed = none`, modelling `json.JSONDecodeError`), for a batch of three
files with pairwise distinct root-relative paths, never raises: it produces
an aggregate whose `file_analyses` has exactly three entries, each an object
carrying an `error` key and the raw response text. -/
theorem C8_malformed_response_three_entries (rawText : String)
    (directory f1 f2 f3 : FsPath) (batchNum totalBatches : ℤ)
    (h12 : joinSlash (relPathFrom f1 directory) ≠ joinSlash (relPathFrom f2 directory))
    (h13 : joinSlash (relPathFrom f1 directory) ≠ joinSlash (relPathFrom f3 directory))
    (h23 : joinSlash (relPathFrom f2 directory) ≠ joinSlash (relPathFrom f3 directory)) :
    ∃ agg', merge_batch none rawText [f1, f2, f3] directory batchNum totalBatches
        empty_aggregate = .ok agg' ∧
      agg'.file_analyses.length = 3 ∧
      entriesAllErrorTagged rawText agg'.file_analyses = true := by
  have e12 : (joinSlash (relPathFrom f1 directory)
      == joinSlash (relPathFrom f2 directory)) = false := beq_eq_false_iff_ne.mpr h12
  have e13 : (joinSlash (relPathFrom f1 directory)
      == joinSlash (relPathFrom f3 directory)) = false := beq_eq_false_iff_ne.mpr h13
  have e23 : (joinSlash (relPathFrom f2 directory)
      == joinSlash (relPathFrom f3 directory)) = false := beq_eq_false_iff_ne.mpr h23
  have hfa : addErrorEntries rawText directory [f1, f2, f3] JsonEntries.nil =
      .cons (joinSlash (relPathFrom f1 directory)) (errorEntry rawText)
        (.cons (joinSlash (relPathFrom f2 directory)) (errorEntry rawText)
          (.cons (joinSlash (relPathFrom f3 directory)) (errorEntry rawText) .nil)) := by
    simp [addErrorEntries, JsonEntries.setKey, e12, e13, e23]
  refine ⟨_, rfl, ?_, ?_⟩
  · show (addErrorEntries rawText directory [f1, f2, f3]
        empty_aggregate.file_analyses).length = 3
    rw [show empty_aggregate.file_analyses = JsonEntries.nil from rfl, hfa]
    rfl
  · show entriesAllErrorTagged rawText (addErrorEntries rawText directory [f1, f2, f3]
        empty_aggregate.file_analyses) = true
    rw [show empty_aggregate.file_analyses = JsonEntries.nil from rfl, hfa]
    simp [entriesAllErrorTagged, errorEntry, JsonEntries.hasKey, JsonEntries.lookupKey]

/-- C8 witness: the theorem at a concrete malformed response and three
concrete distinct files under the directory `d`. -/
theorem C8_malformed_response_witness :
    ∃ agg', merge_batch none "oops" [["d", "a.py"], ["d", "b.py"], ["d", "c.py"]]
        ["d"] 1 1 empty_aggregate = .ok agg' ∧
      agg'.file_analyses.length = 3 ∧
      entriesAllErrorTagged "oops" agg'.file_analyses = true :=
  C8_malformed_response_three_entries "oops" ["d"] ["d", "a.py"] ["d", "b.py"]
    ["d", "c.py"] 1 1 (by decide) (by decide) (by decide)

theorem pyContainsKey_ok_any (j : Json) (k k' : String) (b : Bool)
    (h : pyContainsKey j k = .ok b) : ∃ b', pyContainsKey j k' = .ok b' := by
  cases j <;> simp [pyContainsKey] at h ⊢

/-- C7 counterexample: a repaired response that parses to the bare number 0
and is strictly smaller than the original is rejected, but the membership
test `"metadata" not in 0` raises `TypeError`, the outer handler returns
failure, and nothing — in particular not the original document — is written
to the output file, contradicting the claim that every rejection writes the
original unchanged. -/
theorem C7_scalar_rejection_writes_nothing :
    optimize_gate (Json.obj .nil) 100 (some (Json.num 0)) 1
      = ⟨none, false⟩ ∧ (none : Option Json) ≠ some (Json.obj .nil) := by decide

/-- C7 amended: the repaired response is accepted if and only if it parses,
its serialized size is strictly smaller than the original's, and the three
Python membership tests for `metadata`, `file_tree` and `file_analyses` all
succeed and return true; an accepted response is written as parsed. On
rejection the original document is written unchanged and the pass reports
failure — except when the response parses to a non-container scalar that is
strictly smaller than the original: then the first membership test raises
`TypeError`, the outer handler reports failure, and nothing is written. -/
theorem C7_gate_amended (orig : Json) (origSize : Nat) (parsed : Option Json)
    (optSize : Nat) :
    ((optimize_gate orig origSize parsed optSize).success = true ↔
      ∃ od, parsed = some od ∧ optSize < origSize ∧
        pyContainsKey od "metadata" = .ok true ∧
        pyContainsKey od "file_tree" = .ok true ∧
        pyContainsKey od "file_analyses" = .ok true) ∧
    (∀ od, parsed = some od →
        (optimize_gate orig origSize parsed optSize).success = true →
        (optimize_gate orig origSize parsed optSize).written = some od) ∧
    ((optimize_gate orig origSize parsed optSize).success = false →
      (optimize_gate orig origSize parsed optSize).written = some orig ∨
      ((optimize_gate orig origSize parsed optSize).written = none ∧
        ∃ od e, parsed = some od ∧ optSize < origSize ∧
          pyContainsKey od "metadata" = .error e)) := by
  cases parsed with
  | none =>
    have hg : optimize_gate orig origSize none optSize = ⟨some orig, false⟩ := rfl
    rw [hg]
    refine ⟨by simp, ?_, ?_⟩
    · intro od h _
      nomatch h
    · intro _
      left
      rfl
  | some od =>
    by_cases hsz : origSize ≤ optSize
    · have hg : optimize_gate orig origSize (some od) optSize = ⟨some orig, false⟩ := by
        simp [optimize_gate, hsz]
      rw [hg]
      refine ⟨?_, ?_, ?_⟩
      · constructor
        · intro h
          simp at h
        · rintro ⟨od', _, hlt, _⟩
          exact absurd hlt (not_lt.mpr hsz)
      · intro od' _ h
        simp at h
      · intro _
        left
        rfl
    · have hlt : optSize < origSize := not_le.mp hsz
      cases hm : pyContainsKey od "metadata" with
      | error e =>
        have hg : optimize_gate orig origSize (some od) optSize = ⟨none, false⟩ := by
          simp only [optimize_gate, if_neg hsz]
          rw [hm]
        rw [hg]
        refine ⟨?_, ?_, ?_⟩
        · constructor
          · intro h
            simp at h
          · rintro ⟨od', hod', _, hmk, _⟩
            obtain rfl : od = od' := by injection hod'
            rw [hm] at hmk
            exact absurd hmk (by simp)
        · intro od' _ h
          simp at h
        · intro _
          right
          exact ⟨rfl, od, e, rfl, hlt, hm⟩
      | ok mb =>
        cases mb with
        | false =>
          have hg : optimize_gate orig origSize (some od) optSize = ⟨some orig, false⟩ := by
            simp only [optimize_gate, if_neg hsz]
            rw [hm]
            rfl
          rw [hg]
          refine ⟨?_, ?_, ?_⟩
          · constructor
            · intro h
              simp at h
            · rintro ⟨od', hod', _, hmk, _⟩
              obtain rfl : od = od' := by injection hod'
              rw [hm] at hmk
              exact absurd hmk (by simp)
          · intro od' _ h
            simp at h
          · intro _
            left
            rfl
        | true =>
          cases htr : pyContainsKey od "file_tree" with
          | error e =>
            obtain ⟨b', hb⟩ := pyContainsKey_ok_any od "metadata" "file_tree" true hm
            rw [htr] at hb
            exact absurd hb (by simp)
          | ok tb =>
            cases tb with
            | false =>
              have hg : optimize_gate orig origSize (some od) optSize
                  = ⟨some orig, false⟩ := by
                simp only [optimize_gate, if_neg hsz]
                rw [hm, htr]
                rfl
              rw [hg]
              refine ⟨?_, ?_, ?_⟩
              · constructor
                · intro h
                  simp at h
                · rintro ⟨od', hod', _, _, htk, _⟩
                  obtain rfl : od = od' := by injection hod'
                  rw [htr] at htk
                  exact absurd htk (by simp)
              · intro od' _ h
                simp at h
              · intro _
                left
                rfl
            | true =>
              cases hfa : pyContainsKey od "file_analyses" with
              | error e =>
                obtain ⟨b', hb⟩ := pyContainsKey_ok_any od "metadata" "file_analyses" true hm
                rw [hfa] at hb
                exact absurd hb (by simp)
              | ok fb =>
                cases fb with
                | false =>
                  have hg : optimize_gate orig origSize (some od) optSize
                      = ⟨some orig, false⟩ := by
                    simp only [optimize_gate, if_neg hsz]
                    rw [hm, htr, hfa]
                    rfl
                  rw [hg]
                  refine ⟨?_, ?_, ?_⟩
                  · constructor
                    · intro h
                      simp at h
                    · rintro ⟨od', hod', _, _, _, hfk⟩
                      obtain rfl : od = od' := by injection hod'
                      rw [hfa] at hfk
                      exact absurd hfk (by simp)
                  · intro od' _ h
                    simp at h
                  · intro _
                    left
                    rfl
                | true =>
                  have hg : optimize_gate orig origSize (some od) optSize
                      = ⟨some od, true⟩ := by
                    simp only [optimize_gate, if_neg hsz]
                    rw [hm, htr, hfa]
                    rfl
                  rw [hg]
                  refine ⟨?_, ?_, ?_⟩
                  · constructor
                    · intro _
                      exact ⟨od, rfl, hlt, hm, htr, hfa⟩
                    · intro _
                      rfl
                  · intro od' hod' _
                    obtain rfl : od = od' := by injection hod'
                    rfl
                  · intro h
                    simp at h

/-- C7 witness: the amended theorem's rejection clause at the scalar
counterexample input: the pass fails and the no-write case is the one that
obtains. -/
theorem C7_gate_witness :
    (optimize_gate (Json.obj .nil) 100 (some (Json.num 0)) 1).written
        = some (Json.obj .nil) ∨
    ((optimize_gate (Json.obj .nil) 100 (some (Json.num 0)) 1).written = none ∧
      ∃ od e, (some (Json.num 0) : Option Json) = some od ∧ 1 < 100 ∧
        pyContainsKey od "metadata" = .error e) :=
  (C7_gate_amended (Json.obj .nil) 100 (some (Json.num 0)) 1).2.2 (by decide)
